import Mathlib

/-!
Verification of `src/image_handler.py` (class `ImageHandler`), a filesystem
ingestion/export pipeline for scanned page images.

Shallow embedding conventions:
* Python strings are modelled as `List Char` (`Str`).
* The filesystem is not modelled: the list of paths produced by the glob in
  `read_from_device` is an input (`deviceFiles`), and decoding (`cv2.imread`)
  is an abstract function `decode : Str → Image` supplied as a parameter
  (the code stores `imread`'s result without inspecting it).
* Images are modelled by their numpy `shape` only; pixel contents are not
  needed by any property under consideration.  `cv2.cvtColor` reorders
  channels and preserves the shape, so it is the identity on this model.
* `np.argsort` sorts with an unspecified tie-break; we model it with
  insertion sort (any sort is a faithful model up to the unspecified
  tie-break).
* Fallible operations (Python exceptions) return `Option`; `none` is an
  uncaught exception escaping the modelled function.
* `SAVE_DPI` is modelled as an integer (the configuration surface calls it
  a positive number; all claims use integer DPI).  The Python code computes
  `int(3508 * (300/dpi))` in IEEE 754 binary64: `300/dpi` is the correctly
  rounded double of the exact ratio, and the product with the exact small
  integer 3508 is again correctly rounded.  Both roundings are modelled
  exactly by `fl64`, which rounds a positive rational to 53 significant
  bits with ties to even (gradual underflow included; overflow never occurs
  at these magnitudes, and `300/0` — a Python `ZeroDivisionError` — is
  outside the positive-DPI contract).  `int()` of the nonnegative result is
  its floor.
* `time.strftime('%d_%m_%y-%H_%M')` reads the wall clock; its result is the
  parameter `now : Str` of `save`/`get_pdf_filename`.
-/

/-- Python `str` as a list of characters. -/
abbrev Str := List Char

/-- `IMAGE_FORMATS = ['jpg', 'png', 'bmp', 'tiff']` (module-level constant). -/
def IMAGE_FORMATS : List Str := ["jpg".data, "png".data, "bmp".data, "tiff".data]

/-- The configuration surface consumed by `ImageHandler` (supplied by an
external collaborator; read-only here). -/
structure Config where
  DEVICE_PATH : Str
  IMAGE_PREFIX : Str
  IMAGE_EXTENSION : Str
  READ_GRAYSCALE : Bool
  LAST_IMAGE_IDX : Int
  SAVE_PATH : Str
  SAVE_PREFIX : Str
  SAVE_FORMAT : Str
  SAVE_DPI : Nat
deriving DecidableEq

/-- A decoded raster, modelled by its numpy shape: `[h, w]` for grayscale,
`[h, w, c]` for color. -/
structure Image where
  shape : List Nat
deriving DecidableEq

/-- `os.path.split(name)[-1]`: the part of the path after the last `/`
(the whole string when there is no `/`). -/
def basename (s : Str) : Str :=
  (s.reverse.takeWhile (· ≠ '/')).reverse

/-- `os.path.join(a, b)` on POSIX: `b` if absolute, otherwise `a` and `b`
joined, inserting a `/` unless `a` is empty or already ends in `/`. -/
def pathJoin (a b : Str) : Str :=
  if b.head? = some '/' then b
  else if a = [] ∨ a.getLast? = some '/' then a ++ b
  else a ++ '/' :: b

/-- The value of a nonempty string of ASCII digits; `none` otherwise.
Backs the model of Python `int(s)`. -/
def digitsToNat (s : Str) : Option Nat :=
  if s ≠ [] ∧ s.all Char.isDigit then
    some (s.foldl (fun a c => 10 * a + (c.toNat - 48)) 0)
  else none

/-- Python `int(s)` for base 10: an optional sign followed by a nonempty
digit string; anything else raises `ValueError` (`none`).  (Python also
tolerates surrounding whitespace, underscore digit separators and Unicode
digits; no claim depends on those inputs.) -/
def pyInt (s : Str) : Option Int :=
  match s with
  | '-' :: rest => (digitsToNat rest).map (fun n => -(n : Int))
  | '+' :: rest => (digitsToNat rest).map (fun n => (n : Int))
  | _ => (digitsToNat s).map (fun n => (n : Int))

/-- `ImageHandler.image_name_to_index`: basename, strip the configured
prefix when present, truncate at the first `.`, strip leading zeros, parse
as an integer.  `none` models the `ValueError` raised by `int` on an empty
or non-numeric remainder. -/
def image_name_to_index (prefix_ : Str) (name : Str) : Option Int :=
  let n1 := basename name
  let n2 := if prefix_.isPrefixOf n1 then n1.drop prefix_.length else n1
  let n3 := n2.takeWhile (· ≠ '.')
  let idx := n3.dropWhile (· = '0')
  pyInt idx

/-- Parse every scanned filename, pairing it with its capture index;
`none` if any parse fails (a `ValueError` escaping construction). -/
def parsePairs (cfg : Config) (deviceFiles : List Str) : Option (List (Str × Int)) :=
  deviceFiles.mapM (fun f => (image_name_to_index cfg.IMAGE_PREFIX f).map (fun i => (f, i)))

/-- `ImageHandler.sort_names_by_indices`: sort the (path, index) pairs by
ascending index (`np.argsort`; tie-break unspecified, modelled by a stable
insertion sort). -/
def sort_names_by_indices (l : List (Str × Int)) : List (Str × Int) :=
  List.insertionSort (fun p q => p.2 ≤ q.2) l

/-- `ImageHandler.discard_old`: keep exactly the pairs whose index is
strictly greater than the watermark `LAST_IMAGE_IDX`. -/
def discard_old (watermark : Int) (l : List (Str × Int)) : List (Str × Int) :=
  l.filter (fun p => watermark < p.2)

/-- The state of a constructed `ImageHandler`: the Ingestion Set
(`files`, `indices`, `images`, positionally aligned) plus the iteration
cursor `cnt`. -/
structure ImageHandler where
  CFG : Config
  files : List Str
  indices : List Int
  images : List Image
  cnt : Nat
deriving DecidableEq

/-- The Ingestion Set as (path, index) pairs: sorted, then filtered by the
watermark.  `ImageHandler.__init__` stores its two projections. -/
def keptPairs (cfg : Config) (pairs : List (Str × Int)) : List (Str × Int) :=
  discard_old cfg.LAST_IMAGE_IDX (sort_names_by_indices pairs)

/-- `ImageHandler.__init__` given the glob result `deviceFiles` and the
decoder: parse (fallible), sort, discard old, load.  `none` is a
construction failure (a parse error). -/
def mkImageHandler (decode : Str → Image) (cfg : Config) (deviceFiles : List Str) :
    Option ImageHandler :=
  match parsePairs cfg deviceFiles with
  | none => none
  | some pairs =>
    let kept := keptPairs cfg pairs
    some { CFG := cfg
           files := kept.map Prod.fst
           indices := kept.map Prod.snd
           images := (kept.map Prod.fst).map decode
           cnt := 0 }

/-- `ImageHandler.max`: `-1` for an empty file list, otherwise the maximum
index.  (The `none` branch of `max?` is unreachable for constructed
handlers, whose `indices` has the same length as `files`.) -/
def ImageHandler.max (h : ImageHandler) : Int :=
  if h.files.length = 0 then -1
  else match h.indices.max? with
       | some m => m
       | none => -1

/-- `ImageHandler.__len__`. -/
def ImageHandler.length (h : ImageHandler) : Nat :=
  h.files.length

/-- `ImageHandler.__iter__`: reset the cursor, return the handler itself. -/
def ImageHandler.iter (h : ImageHandler) : ImageHandler :=
  { h with cnt := 0 }

/-- `ImageHandler.__next__`: `none` is `StopIteration`; otherwise the
(base filename, image) pair at the cursor and the advanced handler. -/
def ImageHandler.next (h : ImageHandler) : Option ((Str × Image) × ImageHandler) :=
  if h.cnt = h.files.length then none
  else some ((basename (h.files.getD h.cnt []), h.images.getD h.cnt ⟨[]⟩),
             { h with cnt := h.cnt + 1 })

/-- Run the iterator at most `fuel` steps, collecting the yielded pairs and
returning the final handler state. -/
def drain (fuel : Nat) (h : ImageHandler) : List (Str × Image) × ImageHandler :=
  match fuel with
  | 0 => ([], h)
  | fuel + 1 =>
    match h.next with
    | none => ([], h)
    | some (x, h') =>
      let (rest, hEnd) := drain fuel h'
      (x :: rest, hEnd)

/-- Round a rational to the nearest integer, ties to even (the IEEE 754
default rounding direction). -/
def roundNearestEven (y : ℚ) : ℤ :=
  if y - ⌊y⌋ < 1/2 then ⌊y⌋
  else if 1/2 < y - ⌊y⌋ then ⌊y⌋ + 1
  else if 2 ∣ ⌊y⌋ then ⌊y⌋ else ⌊y⌋ + 1

/-- The IEEE 754 binary64 (double) value nearest to `x`, as an exact
rational: the significand is rounded at 53 bits, ties to even, with
gradual underflow below `2^(-1022)`.  Overflow is not modelled (every
value reached in `resize_to_A4` stays far below `2^1024`); nonpositive
arguments map to 0 and are never produced by a positive DPI. -/
def fl64 (x : ℚ) : ℚ :=
  if x ≤ 0 then 0
  else
    let q := max (Int.log 2 x - 52) (-1074)
    (roundNearestEven (x / 2 ^ q) : ℚ) * 2 ^ q

/-- Target page height in pixels: `int(3508 * (300/dpi))` — A4 portrait at
300 DPI scaled by `300/dpi` in double precision, truncated.  `300/dpi` and
the product are correctly rounded doubles, so the computation is
`fl64 (3508 * fl64 (300/dpi))`; `int()` of the nonnegative result is its
floor. -/
def resize_h (dpi : Nat) : Nat :=
  (⌊fl64 ((3508 : ℚ) * fl64 (300 / (dpi : ℚ)))⌋).toNat

/-- Target page width in pixels: `int(2480 * (300/dpi))` in double
precision, truncated. -/
def resize_w (dpi : Nat) : Nat :=
  (⌊fl64 ((2480 : ℚ) * fl64 (300 / (dpi : ℚ)))⌋).toNat

/-- `ImageHandler.resize_to_A4`: `cv2.resize(img, (w, h))` replaces the
first two shape entries with the target sizes (a channel count, when
present, is preserved).  Other ranks are invalid for `cv2.resize` and do
not arise in any property here. -/
def resize_to_A4 (cfg : Config) (img : Image) : Image :=
  match img.shape with
  | [_, _] => ⟨[resize_h cfg.SAVE_DPI, resize_w cfg.SAVE_DPI]⟩
  | [_, _, c] => ⟨[resize_h cfg.SAVE_DPI, resize_w cfg.SAVE_DPI, c]⟩
  | s => ⟨s⟩

/-- `cv2.cvtColor(img, cv2.COLOR_BGR2RGB)`: reorders channels, preserving
the shape; the identity on the shape-only image model. -/
def cvtColor_BGR2RGB (img : Image) : Image := img

/-- `ImageHandler.get_pdf_filename`: `SAVE_PATH` joined with
`SAVE_PREFIX + '_' + strftime('%d_%m_%y-%H_%M') + '.pdf'`; the strftime
result is the parameter `now`. -/
def get_pdf_filename (cfg : Config) (now : Str) : Str :=
  pathJoin cfg.SAVE_PATH (cfg.SAVE_PREFIX ++ '_' :: (now ++ '.' :: "pdf".data))

/-- Written from the specification's words, for comparison with
`resize_h`: `target_height = round(3508 * 300 / dpi)`. -/
def A4_h_round_spec (dpi : ℚ) : ℤ := round ((3508 : ℚ) * (300 / dpi))

/-- Written from the specification's words, for comparison with
`resize_w`: `target_width = round(2480 * 300 / dpi)`. -/
def A4_w_round_spec (dpi : ℚ) : ℤ := round ((2480 : ℚ) * (300 / dpi))

/-- The filesystem effects of one `save` call: whether the
ensure-output-directory step ran, the individual image files written
(path, written image), and the pdf written (path, page count), if any. -/
structure SaveEffects where
  ensuredDir : Bool
  writes : List (Str × Image)
  pdf : Option (Str × Nat)
deriving DecidableEq

/-- `ImageHandler.save`.  `none` models an uncaught `IndexError`
(`images[0]` on an empty argument, or `self.files[i]` when more images than
ingested files are passed in the single-image branch); effects performed
before such an error are not tracked. -/
def ImageHandler.save (h : ImageHandler) (images : List Image) (now : Str) :
    Option SaveEffects :=
  if h.files.length = 0 then
    some ⟨false, [], none⟩
  else
    match images with
    | [] => none
    | img0 :: _ =>
      let images1 := if img0.shape.length = 3 then images.map cvtColor_BGR2RGB else images
      let images2 := images1.map (resize_to_A4 h.CFG)
      if IMAGE_FORMATS.contains (h.CFG.SAVE_FORMAT.map Char.toLower) then
        if images2.length ≤ h.files.length then
          some ⟨true,
                List.zipWith (fun f im => (pathJoin h.CFG.SAVE_PATH (basename f), im))
                  h.files images2,
                none⟩
        else none
      else
        some ⟨true, [], some (get_pdf_filename h.CFG now, images2.length)⟩

/-- A concrete configuration for concrete runs: device `"/dev/scan"`,
prefix `"IMG_"`, extension `"jpg"`, grayscale, output `"out"` with prefix
`"scan"`; format, watermark and DPI vary. -/
def mkCfg (fmt : Str) (w : Int) (dpi : Nat) : Config :=
  ⟨"/dev/scan".data, "IMG_".data, "jpg".data, true, w, "out".data, "scan".data, fmt, dpi⟩

/-- A concrete decoder stub: every file decodes to a 4×6 grayscale image. -/
def decode0 : Str → Image := fun _ => ⟨[4, 6]⟩

/-- A concrete glob result, deliberately out of order. -/
def fs0 : List Str :=
  ["IMG_0003.jpg".data, "IMG_0001.jpg".data, "IMG_0002.jpg".data]

/-- The handler `mkImageHandler decode0 (mkCfg fmt (-1) dpi) fs0` evaluates
to, for any `fmt` and `dpi`: all three files survive watermark `-1`, in
index order. -/
def h0 (fmt : Str) (dpi : Nat) : ImageHandler :=
  ⟨mkCfg fmt (-1) dpi,
   ["IMG_0001.jpg".data, "IMG_0002.jpg".data, "IMG_0003.jpg".data],
   [1, 2, 3],
   [⟨[4, 6]⟩, ⟨[4, 6]⟩, ⟨[4, 6]⟩],
   0⟩

/-! ### Helper lemmas about the construction pipeline -/

instance : IsTotal (Str × Int) (fun p q => p.2 ≤ q.2) :=
  ⟨fun a b => Int.le_total a.2 b.2⟩

instance : IsTrans (Str × Int) (fun p q => p.2 ≤ q.2) :=
  ⟨fun _ _ _ hab hbc => le_trans hab hbc⟩

/-- Unfolding of a successful construction: the stored fields are the
projections of the sorted-and-filtered pair list. -/
theorem mkImageHandler_eq {decode : Str → Image} {cfg : Config} {fs : List Str}
    {h : ImageHandler} (hmk : mkImageHandler decode cfg fs = some h) :
    ∃ pairs, parsePairs cfg fs = some pairs ∧
      h.CFG = cfg ∧
      h.files = (keptPairs cfg pairs).map Prod.fst ∧
      h.indices = (keptPairs cfg pairs).map Prod.snd ∧
      h.images = ((keptPairs cfg pairs).map Prod.fst).map decode ∧
      h.cnt = 0 := by
  unfold mkImageHandler at hmk
  cases hp : parsePairs cfg fs with
  | none => rw [hp] at hmk; exact absurd hmk (by simp)
  | some pairs =>
    rw [hp] at hmk
    simp only [Option.some.injEq] at hmk
    exact ⟨pairs, rfl, by rw [← hmk], by rw [← hmk], by rw [← hmk], by rw [← hmk],
           by rw [← hmk]⟩

/-- The kept pair list is sorted by (non-strictly) ascending index. -/
theorem keptPairs_sorted (cfg : Config) (pairs : List (Str × Int)) :
    List.Sorted (fun p q : Str × Int => p.2 ≤ q.2) (keptPairs cfg pairs) :=
  (List.sorted_insertionSort _ pairs).filter _

/-- The kept pair list is a permutation of the parsed pairs that survive
the watermark. -/
theorem keptPairs_perm (cfg : Config) (pairs : List (Str × Int)) :
    (keptPairs cfg pairs).Perm
      (pairs.filter (fun p => cfg.LAST_IMAGE_IDX < p.2)) :=
  (List.perm_insertionSort _ pairs).filter _

/-- Every kept pair's index is strictly above the watermark. -/
theorem keptPairs_gt_watermark (cfg : Config) (pairs : List (Str × Int))
    {p : Str × Int} (hp : p ∈ keptPairs cfg pairs) : cfg.LAST_IMAGE_IDX < p.2 := by
  have := List.of_mem_filter hp
  simpa using this

/-- Zipping the two projections of a pair list recovers it. -/
theorem zip_map_fst_snd (l : List (Str × Int)) :
    (l.map Prod.fst).zip (l.map Prod.snd) = l := by
  rw [List.zip_map']
  simp

/-! ### Helper lemmas about paths and filenames -/

/-- `takeWhile` over an append: the first block satisfies `p`, the pivot
fails it. -/
theorem takeWhile_append_sat {p : Char → Bool} (l₁ : Str) {x : Char} (l₂ : Str)
    (hall : ∀ c ∈ l₁, p c = true) (hx : p x = false) :
    List.takeWhile p (l₁ ++ x :: l₂) = l₁ := by
  induction l₁ with
  | nil => simp [List.takeWhile_cons, hx]
  | cons c t ih =>
    have hc := hall c (by simp)
    simp only [List.cons_append, List.takeWhile_cons, hc, if_true]
    rw [ih (fun d hd => hall d (by simp [hd]))]

/-- A slash-free string is its own basename. -/
theorem basename_of_no_slash {s : Str} (h : '/' ∉ s) : basename s = s := by
  unfold basename
  rw [List.takeWhile_eq_self_iff.mpr, List.reverse_reverse]
  intro x hx
  rw [List.mem_reverse] at hx
  exact decide_eq_true (by rintro rfl; exact h hx)

/-- The basename of `a ++ "/" ++ b` is `b` when `b` is slash-free. -/
theorem basename_append_slash (a : Str) {b : Str} (h : '/' ∉ b) :
    basename (a ++ '/' :: b) = b := by
  unfold basename
  have hrev : (a ++ '/' :: b).reverse = b.reverse ++ '/' :: a.reverse := by
    simp
  rw [hrev, takeWhile_append_sat b.reverse a.reverse
        (fun c hc => decide_eq_true (by rintro rfl; exact h (List.mem_reverse.mp hc)))
        (by decide), List.reverse_reverse]

/-- A basename never contains a slash. -/
theorem slash_not_mem_basename (s : Str) : '/' ∉ basename s := by
  intro hmem
  unfold basename at hmem
  rw [List.mem_reverse] at hmem
  have := List.mem_takeWhile_imp hmem
  simp at this

/-- `basename (pathJoin a b) = b` for slash-free `b`. -/
theorem basename_pathJoin (a : Str) {b : Str} (h : '/' ∉ b) :
    basename (pathJoin a b) = b := by
  unfold pathJoin
  split
  · next hb =>
    cases b with
    | nil => simp at hb
    | cons c t =>
      simp only [List.head?_cons, Option.some.injEq] at hb
      exact absurd (hb ▸ List.mem_cons_self c t) h
  · split
    · next hc =>
      rcases hc with rfl | hl
      · simpa using basename_of_no_slash h
      · obtain ⟨a', rfl⟩ := List.getLast?_eq_some_iff.mp hl
        rw [List.append_assoc]
        exact basename_append_slash a' h
    · exact basename_append_slash a h

/-- Stripping leading `'0'`s from an all-zero string leaves nothing. -/
theorem dropWhile_zeros (n : Nat) :
    List.dropWhile (· = '0') (List.replicate n '0') = [] := by
  induction n with
  | zero => rfl
  | succ k ih => simp [List.replicate_succ, List.dropWhile_cons, ih]

/-! ### C1 — index parsing of all-zero digit strings -/

/-- C1 (counterexample): with prefix `"IMG_"`, parsing `"IMG_000000.jpg"`
fails (`int('')` raises `ValueError`); in particular it does not return 0
as the claim states. -/
theorem C1_counterexample :
    image_name_to_index ("IMG_".data) ("IMG_000000.jpg".data) = none ∧
    image_name_to_index ("IMG_".data) ("IMG_000000.jpg".data) ≠ some 0 := by
  constructor
  · decide
  · decide

/-- C1 (amended): for every slash-free prefix and extension and every
nonempty all-zero digit string, the index parser fails (`none`) on
`prefix ++ zeros ++ "." ++ ext` — stripping leading zeros leaves the empty
string, which `int` rejects; there is no special case mapping it to 0. -/
theorem image_name_to_index_all_zeros (pre ext : Str) (n : Nat)
    (hpre : '/' ∉ pre) (hext : '/' ∉ ext) (_hn : 0 < n) :
    image_name_to_index pre (pre ++ List.replicate n '0' ++ '.' :: ext) = none := by
  have hassoc : pre ++ List.replicate n '0' ++ '.' :: ext =
      pre ++ (List.replicate n '0' ++ '.' :: ext) := by
    rw [List.append_assoc]
  have hnos : '/' ∉ pre ++ (List.replicate n '0' ++ '.' :: ext) := by
    intro hmem
    rcases List.mem_append.mp hmem with h1 | h2
    · exact hpre h1
    · rcases List.mem_append.mp h2 with hz | hc
      · exact absurd (List.eq_of_mem_replicate hz) (by decide)
      · rcases List.mem_cons.mp hc with heq | he
        · exact absurd heq (by decide)
        · exact hext he
  have hpref : pre.isPrefixOf (pre ++ (List.replicate n '0' ++ '.' :: ext)) = true :=
    List.isPrefixOf_iff_prefix.mpr (List.prefix_append pre _)
  simp only [image_name_to_index, hassoc, basename_of_no_slash hnos, hpref, if_true,
    List.drop_left]
  rw [takeWhile_append_sat (List.replicate n '0') ext
        (fun c hc => by rw [List.eq_of_mem_replicate hc]; decide) (by decide),
      dropWhile_zeros]
  rfl

/-- C1 (witness): the amended theorem applied at prefix `"IMG_"`, six
zeros, extension `"jpg"` — i.e. the spec's own example `"IMG_000000.jpg"`. -/
theorem image_name_to_index_all_zeros_witness :
    ('/' ∉ "IMG_".data) ∧ ('/' ∉ "jpg".data) ∧ 0 < 6 ∧
    image_name_to_index ("IMG_".data)
      ("IMG_".data ++ List.replicate 6 '0' ++ '.' :: "jpg".data) = none :=
  ⟨by decide, by decide, by decide,
   image_name_to_index_all_zeros ("IMG_".data) ("jpg".data) 6
     (by decide) (by decide) (by decide)⟩

/-! ### C2 — save is a no-op when the Ingestion Set is empty -/

/-- C2: for every constructed handler whose Ingestion Set is empty, `save`
returns immediately with no error, writes nothing, and does not create the
output directory — for every `images` argument, including non-empty ones;
the guard is on the ingestion set's length, not the argument's. -/
theorem save_noop_of_empty_ingestion {decode : Str → Image} {cfg : Config}
    {fs : List Str} {h : ImageHandler} (_hmk : mkImageHandler decode cfg fs = some h)
    (hempty : h.files = []) (images : List Image) (now : Str) :
    h.save images now = some ⟨false, [], none⟩ := by
  unfold ImageHandler.save
  rw [if_pos (by simp [hempty])]

/-- C2 (witness): a device with one image and watermark 10 yields an empty
Ingestion Set; `save` on a non-empty image list is then a pure no-op. -/
theorem save_noop_of_empty_ingestion_witness :
    (⟨mkCfg ("jpg".data) 10 300, [], [], [], 0⟩ : ImageHandler).save [⟨[4, 6]⟩] [] =
      some ⟨false, [], none⟩ :=
  @save_noop_of_empty_ingestion decode0 (mkCfg ("jpg".data) 10 300)
    ["IMG_0001.jpg".data] ⟨mkCfg ("jpg".data) 10 300, [], [], [], 0⟩
    (by decide) (by decide) [⟨[4, 6]⟩] []

/-! ### C10 — save on a non-empty Ingestion Set with an empty argument -/

/-- C10: if the Ingestion Set is non-empty and `save` is called with an
empty image list, `save` fails (the `images[0]` read raises `IndexError`);
the empty-argument case is not handled. -/
theorem save_empty_arg_fails {decode : Str → Image} {cfg : Config}
    {fs : List Str} {h : ImageHandler} (_hmk : mkImageHandler decode cfg fs = some h)
    (hne : h.files ≠ []) (now : Str) :
    h.save [] now = none := by
  unfold ImageHandler.save
  rw [if_neg (by simp [List.length_eq_zero, hne])]

/-- C10 (witness): the three-image handler crashes on `save []`. -/
theorem save_empty_arg_fails_witness :
    (h0 ("jpg".data) 300).save [] [] = none :=
  @save_empty_arg_fails decode0 (mkCfg ("jpg".data) (-1) 300) fs0
    (h0 ("jpg".data) 300) (by decide) (by decide) []

/-! ### C3 — the watermark filter -/

/-- C3: after construction the Ingestion Set contains no element with
index ≤ the watermark, and it consists of exactly the parsed (path, index)
pairs with index strictly greater than the watermark (as a permutation —
the order is given by the sort). -/
theorem ingestion_above_watermark {decode : Str → Image} {cfg : Config}
    {fs : List Str} {h : ImageHandler} {pairs : List (Str × Int)}
    (hmk : mkImageHandler decode cfg fs = some h)
    (hp : parsePairs cfg fs = some pairs) :
    (∀ i ∈ h.indices, cfg.LAST_IMAGE_IDX < i) ∧
    (h.files.zip h.indices).Perm
      (pairs.filter (fun p => cfg.LAST_IMAGE_IDX < p.2)) := by
  obtain ⟨pairs', hp', _, hfiles, hind, _, _⟩ := mkImageHandler_eq hmk
  rw [hp] at hp'
  have hpp : pairs' = pairs := (Option.some.inj hp').symm
  rw [hpp] at hfiles hind
  constructor
  · intro i hi
    rw [hind] at hi
    obtain ⟨p, hpmem, rfl⟩ := List.mem_map.mp hi
    exact keptPairs_gt_watermark cfg pairs hpmem
  · rw [hfiles, hind, zip_map_fst_snd]
    exact keptPairs_perm cfg pairs

/-- C3 (witness): the watermark `-1` keeps all three parsed pairs of the
concrete run. -/
theorem ingestion_above_watermark_witness :
    (∀ i ∈ (h0 ("jpg".data) 300).indices, (mkCfg ("jpg".data) (-1) 300).LAST_IMAGE_IDX < i) ∧
    ((h0 ("jpg".data) 300).files.zip (h0 ("jpg".data) 300).indices).Perm
      ([("IMG_0003.jpg".data, (3 : Int)), ("IMG_0001.jpg".data, 1),
        ("IMG_0002.jpg".data, 2)].filter
        (fun p => (mkCfg ("jpg".data) (-1) 300).LAST_IMAGE_IDX < p.2)) :=
  @ingestion_above_watermark decode0 (mkCfg ("jpg".data) (-1) 300) fs0
    (h0 ("jpg".data) 300)
    [("IMG_0003.jpg".data, (3 : Int)), ("IMG_0001.jpg".data, 1),
     ("IMG_0002.jpg".data, 2)]
    (by decide) (by decide)

/-! ### C4 — the Ingestion Set is sorted by index -/

/-- C4: after construction the Capture Indices form a non-decreasing
sequence. -/
theorem ingestion_sorted {decode : Str → Image} {cfg : Config}
    {fs : List Str} {h : ImageHandler}
    (hmk : mkImageHandler decode cfg fs = some h) :
    List.Sorted (· ≤ ·) h.indices := by
  obtain ⟨pairs, _, _, _, hind, _, _⟩ := mkImageHandler_eq hmk
  rw [hind]
  exact List.pairwise_map.mpr (keptPairs_sorted cfg pairs)

/-- C4 (witness): the concrete run's indices `[1, 2, 3]` are sorted. -/
theorem ingestion_sorted_witness :
    List.Sorted (· ≤ ·) (h0 ("jpg".data) 300).indices :=
  @ingestion_sorted decode0 (mkCfg ("jpg".data) (-1) 300) fs0
    (h0 ("jpg".data) 300) (by decide)

/-! ### C6 — the highest-index query -/

/-- C6: for every constructed handler, `max` returns `-1` when the
Ingestion Set is empty, and otherwise the maximum Capture Index held. -/
theorem max_spec {decode : Str → Image} {cfg : Config}
    {fs : List Str} {h : ImageHandler}
    (hmk : mkImageHandler decode cfg fs = some h) :
    (h.files = [] → h.max = -1) ∧
    (h.files ≠ [] → h.max ∈ h.indices ∧ ∀ i ∈ h.indices, i ≤ h.max) := by
  obtain ⟨pairs, _, _, hfiles, hind, _, _⟩ := mkImageHandler_eq hmk
  constructor
  · intro he
    unfold ImageHandler.max
    rw [if_pos (by simp [he])]
  · intro hne
    have hlen : h.indices ≠ [] := by
      rw [hfiles] at hne
      rw [hind]
      simpa using hne
    unfold ImageHandler.max
    rw [if_neg (by simp [List.length_eq_zero, hne])]
    cases hmax : h.indices.max? with
    | none => exact absurd (List.max?_eq_none_iff.mp hmax) hlen
    | some m =>
      refine ⟨List.max?_mem (fun x y => max_choice x y) hmax, ?_⟩
      intro i hi
      exact (List.max?_le_iff (fun x y z : Int => max_le_iff) hmax (x := m)).mp le_rfl i hi

/-- C6 (witness): the concrete run's maximum index is an element and an
upper bound (it is 3). -/
theorem max_spec_witness :
    ((h0 ("jpg".data) 300).files = [] → (h0 ("jpg".data) 300).max = -1) ∧
    ((h0 ("jpg".data) 300).files ≠ [] →
      (h0 ("jpg".data) 300).max ∈ (h0 ("jpg".data) 300).indices ∧
      ∀ i ∈ (h0 ("jpg".data) 300).indices, i ≤ (h0 ("jpg".data) 300).max) :=
  @max_spec decode0 (mkCfg ("jpg".data) (-1) 300) fs0
    (h0 ("jpg".data) 300) (by decide)

/-! ### C5 — Page Normalizer target dimensions

The binary64 lemmas: `roundNearestEven` on integers and on values below
the rounding boundary, the characterization of `Int.log 2`, the generic
rounding step of `fl64` in the normal range, representable values as fixed
points, and the evaluation of `resize_h`/`resize_w` at the DPIs the claims
name.  `resize_w_float_93` demonstrates that the model reproduces the
float computation rather than exact arithmetic: at DPI 93 the width is
7999, one below the exact `⌊744000/93⌋ = 8000`. -/

/-- Rounding an integer changes nothing. -/
theorem roundNearestEven_intCast (n : ℤ) : roundNearestEven (n : ℚ) = n := by
  unfold roundNearestEven
  rw [Int.floor_intCast, sub_self]
  norm_num

/-- Below the halfway point, rounding is the floor. -/
theorem roundNearestEven_eq_floor {y : ℚ} (h : y - ⌊y⌋ < 1/2) :
    roundNearestEven y = ⌊y⌋ := by
  unfold roundNearestEven
  rw [if_pos h]

/-- `Int.log 2` is characterized by the enclosing binade. -/
theorem int_log2_eq {x : ℚ} (e : ℤ) (hx : 0 < x)
    (hlo : (2:ℚ)^e ≤ x) (hup : x < 2^(e+1)) : Int.log 2 x = e := by
  have h1 : ((2:ℕ):ℚ)^(Int.log 2 x) ≤ x := Int.zpow_log_le_self (by norm_num) hx
  have h2 : x < ((2:ℕ):ℚ)^(Int.log 2 x + 1) := Int.lt_zpow_succ_log_self (by norm_num) x
  have hcast : ((2:ℕ):ℚ) = (2:ℚ) := by norm_num
  rw [hcast] at h1 h2
  have ha : e < Int.log 2 x + 1 :=
    (zpow_lt_zpow_iff_right₀ (by norm_num : (1:ℚ) < 2)).mp (lt_of_le_of_lt hlo h2)
  have hb : Int.log 2 x < e + 1 :=
    (zpow_lt_zpow_iff_right₀ (by norm_num : (1:ℚ) < 2)).mp (lt_of_le_of_lt h1 hup)
  omega

/-- `fl64` in the normal range: scale into the binade's 53-bit grid, round
to nearest even, scale back. -/
theorem fl64_eq_round {x : ℚ} (e : ℤ) (hx : 0 < x)
    (hlo : (2:ℚ)^e ≤ x) (hup : x < 2^(e+1)) (he : (-1022:ℤ) ≤ e) :
    fl64 x = (roundNearestEven (x / 2^(e - 52)) : ℚ) * 2^(e - 52) := by
  unfold fl64
  rw [if_neg (not_le.mpr hx), int_log2_eq e hx hlo hup,
      max_eq_left (by omega : (-1074:ℤ) ≤ e - 52)]

/-- Values of the form `m * 2^t` with at most 53 significand bits are
exactly representable: `fl64` fixes them. -/
theorem fl64_fixed (m : ℕ) (t e : ℤ) (hm0 : 0 < m)
    (hlo : (2:ℚ)^e ≤ (m:ℚ) * 2^t) (hup : (m:ℚ) * 2^t < 2^(e+1))
    (hq : e - 52 ≤ t) (he : (-1022:ℤ) ≤ e) :
    fl64 ((m:ℚ) * 2^t) = (m:ℚ) * 2^t := by
  have hx : (0:ℚ) < (m:ℚ) * 2^t := by positivity
  rw [fl64_eq_round e hx hlo hup he]
  have hk : (0:ℤ) ≤ t - (e - 52) := by omega
  have hdiv : (m:ℚ) * 2^t / 2^(e - 52) =
      (((m * 2^(t - (e - 52)).toNat : ℕ) : ℤ) : ℚ) := by
    rw [mul_div_assoc, ← zpow_sub₀ (by norm_num : (2:ℚ) ≠ 0)]
    push_cast
    rw [← zpow_natCast (2:ℚ) ((t - (e - 52)).toNat), Int.toNat_of_nonneg hk]
  rw [hdiv, roundNearestEven_intCast]
  push_cast
  rw [← zpow_natCast (2:ℚ) ((t - (e - 52)).toNat), Int.toNat_of_nonneg hk,
      mul_assoc, ← zpow_add₀ (by norm_num : (2:ℚ) ≠ 0),
      show t - (e - 52) + (e - 52) = t from by omega]

/-- `300/300 = 1` and `3508` are exact: target height 3508 at 300 DPI. -/
theorem resize_h_300 : resize_h 300 = 3508 := by
  have hd : fl64 ((300:ℚ) / ((300:Nat):ℚ)) = 1 := by
    have hx : ((300:ℚ) / ((300:Nat):ℚ)) = ((1:ℕ):ℚ) * 2^(0:ℤ) := by norm_num
    rw [hx, fl64_fixed 1 0 0 (by norm_num) (by norm_num) (by norm_num) (by norm_num)
          (by norm_num)]
    norm_num
  unfold resize_h
  rw [hd]
  have hx : ((3508:ℚ) * 1) = ((3508:ℕ):ℚ) * 2^(0:ℤ) := by norm_num
  rw [hx, fl64_fixed 3508 0 11 (by norm_num) (by norm_num) (by norm_num) (by norm_num)
        (by norm_num)]
  norm_num
  decide

/-- Target width 2480 at 300 DPI. -/
theorem resize_w_300 : resize_w 300 = 2480 := by
  have hd : fl64 ((300:ℚ) / ((300:Nat):ℚ)) = 1 := by
    have hx : ((300:ℚ) / ((300:Nat):ℚ)) = ((1:ℕ):ℚ) * 2^(0:ℤ) := by norm_num
    rw [hx, fl64_fixed 1 0 0 (by norm_num) (by norm_num) (by norm_num) (by norm_num)
          (by norm_num)]
    norm_num
  unfold resize_w
  rw [hd]
  have hx : ((2480:ℚ) * 1) = ((2480:ℕ):ℚ) * 2^(0:ℤ) := by norm_num
  rw [hx, fl64_fixed 2480 0 11 (by norm_num) (by norm_num) (by norm_num) (by norm_num)
        (by norm_num)]
  norm_num
  decide

/-- Target height 7016 at 150 DPI. -/
theorem resize_h_150 : resize_h 150 = 7016 := by
  have hd : fl64 ((300:ℚ) / ((150:Nat):ℚ)) = 2 := by
    have hx : ((300:ℚ) / ((150:Nat):ℚ)) = ((1:ℕ):ℚ) * 2^(1:ℤ) := by norm_num
    rw [hx, fl64_fixed 1 1 1 (by norm_num) (by norm_num) (by norm_num) (by norm_num)
          (by norm_num)]
    norm_num
  unfold resize_h
  rw [hd]
  have hx : ((3508:ℚ) * 2) = ((7016:ℕ):ℚ) * 2^(0:ℤ) := by norm_num
  rw [hx, fl64_fixed 7016 0 12 (by norm_num) (by norm_num) (by norm_num) (by norm_num)
        (by norm_num)]
  norm_num
  decide

/-- Target width 4960 at 150 DPI. -/
theorem resize_w_150 : resize_w 150 = 4960 := by
  have hd : fl64 ((300:ℚ) / ((150:Nat):ℚ)) = 2 := by
    have hx : ((300:ℚ) / ((150:Nat):ℚ)) = ((1:ℕ):ℚ) * 2^(1:ℤ) := by norm_num
    rw [hx, fl64_fixed 1 1 1 (by norm_num) (by norm_num) (by norm_num) (by norm_num)
          (by norm_num)]
    norm_num
  unfold resize_w
  rw [hd]
  have hx : ((2480:ℚ) * 2) = ((4960:ℕ):ℚ) * 2^(0:ℤ) := by norm_num
  rw [hx, fl64_fixed 4960 0 12 (by norm_num) (by norm_num) (by norm_num) (by norm_num)
        (by norm_num)]
  norm_num
  decide

/-- At 800 DPI: `300/800 = 0.375` and `3508 · 0.375 = 1315.5` are exactly
representable, and `int(1315.5) = 1315`. -/
theorem resize_h_800 : resize_h 800 = 1315 := by
  have hd : fl64 ((300:ℚ) / ((800:Nat):ℚ)) = ((3:ℕ):ℚ) * 2^(-3:ℤ) := by
    have hx : ((300:ℚ) / ((800:Nat):ℚ)) = ((3:ℕ):ℚ) * 2^(-3:ℤ) := by
      norm_num [zpow_neg]
    rw [hx, fl64_fixed 3 (-3) (-2) (by norm_num) (by norm_num [zpow_neg])
          (by norm_num [zpow_neg]) (by norm_num) (by norm_num)]
  unfold resize_h
  rw [hd]
  have hx : ((3508:ℚ) * (((3:ℕ):ℚ) * 2^(-3:ℤ))) = ((2631:ℕ):ℚ) * 2^(-1:ℤ) := by
    norm_num [zpow_neg]
  rw [hx, fl64_fixed 2631 (-1) 10 (by norm_num) (by norm_num [zpow_neg])
        (by norm_num [zpow_neg]) (by norm_num) (by norm_num)]
  norm_num [zpow_neg]
  decide

/-- At 800 DPI the width `2480 · 0.375 = 930` is exact. -/
theorem resize_w_800 : resize_w 800 = 930 := by
  have hd : fl64 ((300:ℚ) / ((800:Nat):ℚ)) = ((3:ℕ):ℚ) * 2^(-3:ℤ) := by
    have hx : ((300:ℚ) / ((800:Nat):ℚ)) = ((3:ℕ):ℚ) * 2^(-3:ℤ) := by
      norm_num [zpow_neg]
    rw [hx, fl64_fixed 3 (-3) (-2) (by norm_num) (by norm_num [zpow_neg])
          (by norm_num [zpow_neg]) (by norm_num) (by norm_num)]
  unfold resize_w
  rw [hd]
  have hx : ((2480:ℚ) * (((3:ℕ):ℚ) * 2^(-3:ℤ))) = ((930:ℕ):ℚ) * 2^(0:ℤ) := by
    norm_num [zpow_neg]
  rw [hx, fl64_fixed 930 0 9 (by norm_num) (by norm_num) (by norm_num) (by norm_num)
        (by norm_num)]
  norm_num
  decide

/-- At 93 DPI the float computation dips below the exact value:
`300/93` rounds to `7263870366726606 · 2⁻⁵¹` (just under `100/31`), the
product with 2480 rounds to `8796093022207999 · 2⁻⁴⁰ ≈ 7999.999999999999`,
and `int()` gives 7999 — one less than the exact `⌊744000/93⌋ = 8000`.
This pins the model to the float semantics, not exact division. -/
theorem resize_w_float_93 : resize_w 93 = 7999 ∧ 2480 * 300 / 93 = 8000 := by
  refine ⟨?_, by norm_num⟩
  have hd : fl64 ((300:ℚ) / ((93:Nat):ℚ)) = (7263870366726606 : ℚ) * 2^(-51:ℤ) := by
    rw [fl64_eq_round 1 (by norm_num) (by norm_num) (by norm_num) (by norm_num)]
    have hy : ((300:ℚ) / ((93:Nat):ℚ)) / 2^((1:ℤ) - 52) = 225179981368524800/31 := by
      rw [show (1:ℤ) - 52 = -51 from by norm_num, zpow_neg]
      norm_num
    rw [hy, roundNearestEven_eq_floor (by norm_num)]
    norm_num
  unfold resize_w
  rw [hd]
  have hx : (2480:ℚ) * ((7263870366726606 : ℚ) * 2^(-51:ℤ)) =
      (562949953421311965 : ℚ) * 2^(-46:ℤ) := by
    rw [show (-51:ℤ) = (-46) + (-5) from by norm_num,
        zpow_add₀ (by norm_num : (2:ℚ) ≠ 0)]
    norm_num
  rw [hx, fl64_eq_round 12 (by positivity) (by norm_num) (by norm_num) (by norm_num)]
  have hy : ((562949953421311965:ℚ) * 2^(-46:ℤ)) / 2^((12:ℤ) - 52) =
      562949953421311965/64 := by
    rw [show (12:ℤ) - 52 = -40 from by norm_num, zpow_neg, zpow_neg]
    norm_num
  rw [hy, roundNearestEven_eq_floor (by norm_num)]
  norm_num
  decide

/-- C5 (counterexample): at DPI 800 the code truncates `1315.5` to 1315
(`int()`), while the claimed `round` formula gives 1316; the Page
Normalizer's output height therefore differs from `round(3508 * 300 / dpi)`.
(At DPI 800 the float computation is exact: `300/800 = 0.375` and
`3508 * 0.375 = 1315.5` are exactly representable.) -/
theorem resize_round_counterexample :
    (resize_to_A4 (mkCfg ("jpg".data) (-1) 800) ⟨[100, 100]⟩).shape = [1315, 930] ∧
    A4_h_round_spec 800 = 1316 ∧
    ((resize_h 800 : ℤ) ≠ A4_h_round_spec 800) := by
  have h2 : A4_h_round_spec 800 = 1316 := by
    unfold A4_h_round_spec
    rw [round_eq]
    norm_num
  have hshape : (resize_to_A4 (mkCfg ("jpg".data) (-1) 800) ⟨[100, 100]⟩).shape
      = [resize_h 800, resize_w 800] := rfl
  refine ⟨by rw [hshape, resize_h_800, resize_w_800], h2, ?_⟩
  rw [h2, resize_h_800]
  decide

/-- C5 (amended): the Page Normalizer resizes every (grayscale or color)
image to `target_height = int(3508 * (300/dpi))` and
`target_width = int(2480 * (300/dpi))` — double-precision truncation, not
`round`; in particular for DPI = 300 the target is exactly 3508×2480 and
for DPI = 150 exactly 7016×4960, where truncation and rounding agree. -/
theorem resize_to_A4_dims (cfg : Config) (img : Image) (a b : Nat)
    (hs : img.shape = [a, b] ∨ ∃ c, img.shape = [a, b, c]) :
    (resize_to_A4 cfg img).shape.take 2 =
      [resize_h cfg.SAVE_DPI, resize_w cfg.SAVE_DPI] ∧
    resize_h 300 = 3508 ∧ resize_w 300 = 2480 ∧
    resize_h 150 = 7016 ∧ resize_w 150 = 4960 := by
  refine ⟨?_, resize_h_300, resize_w_300, resize_h_150, resize_w_150⟩
  rcases hs with h2 | ⟨c, h3⟩
  · simp [resize_to_A4, h2]
  · simp [resize_to_A4, h3]

/-- C5 (witness): the amended theorem at DPI 300 on a 4×6 grayscale
image. -/
theorem resize_to_A4_dims_witness :
    ((⟨[4, 6]⟩ : Image).shape = [4, 6] ∨ ∃ c, (⟨[4, 6]⟩ : Image).shape = [4, 6, c]) ∧
    ((resize_to_A4 (mkCfg ("jpg".data) (-1) 300) ⟨[4, 6]⟩).shape.take 2 =
        [resize_h 300, resize_w 300] ∧
      resize_h 300 = 3508 ∧ resize_w 300 = 2480 ∧
      resize_h 150 = 7016 ∧ resize_w 150 = 4960) :=
  ⟨Or.inl rfl, resize_to_A4_dims (mkCfg ("jpg".data) (-1) 300) ⟨[4, 6]⟩ 4 6 (Or.inl rfl)⟩

/-! ### C7 / C8 — the two export branches -/

/-- Unfolding of `save` on a non-empty image list when the Ingestion Set
is non-empty. -/
theorem save_cons (h : ImageHandler) (img0 : Image) (rest : List Image)
    (now : Str) (hne : h.files ≠ []) :
    h.save (img0 :: rest) now =
      (let images1 := if img0.shape.length = 3
         then (img0 :: rest).map cvtColor_BGR2RGB else img0 :: rest
       let images2 := images1.map (resize_to_A4 h.CFG)
       if IMAGE_FORMATS.contains (h.CFG.SAVE_FORMAT.map Char.toLower) then
         if images2.length ≤ h.files.length then
           some ⟨true,
                 List.zipWith (fun f im => (pathJoin h.CFG.SAVE_PATH (basename f), im))
                   h.files images2,
                 none⟩
         else none
       else some ⟨true, [], some (get_pdf_filename h.CFG now, images2.length)⟩) := by
  unfold ImageHandler.save
  rw [if_neg (by simp [List.length_eq_zero, hne])]

/-- The filenames of the write list built by `save`'s single-image loop. -/
theorem map_fst_zipWith (g : Str → Str) (l₁ : List Str) (l₂ : List Image)
    (hlen : l₁.length ≤ l₂.length) :
    (List.zipWith (fun f im => (g f, im)) l₁ l₂).map Prod.fst = l₁.map g := by
  induction l₁ generalizing l₂ with
  | nil => simp
  | cons a t ih =>
    cases l₂ with
    | nil => simp at hlen
    | cons b t₂ =>
      simp only [List.zipWith_cons_cons, List.map_cons, List.cons.injEq, true_and]
      exact ih t₂ (by simpa using hlen)

/-- C7: with a recognized single-image `SAVE_FORMAT` and a non-empty
Ingestion Set, `save` writes no pdf and one file per passed image, the
i-th into the output directory under the base name of the i-th ingested
file; when as many images are passed as were ingested (e.g. the N ingested
images under watermark -1), the written base names are exactly the source
base names. -/
theorem save_image_format {decode : Str → Image} {cfg : Config}
    {fs : List Str} {h : ImageHandler} (images : List Image) (now : Str)
    (hmk : mkImageHandler decode cfg fs = some h)
    (hfmt : IMAGE_FORMATS.contains (cfg.SAVE_FORMAT.map Char.toLower) = true)
    (hne : h.files ≠ []) (hlen : images.length = h.files.length) :
    ∃ eff, h.save images now = some eff ∧ eff.pdf = none ∧
      eff.writes.length = h.files.length ∧
      eff.writes.map Prod.fst =
        h.files.map (fun f => pathJoin cfg.SAVE_PATH (basename f)) ∧
      eff.writes.map (fun w => basename w.1) = h.files.map basename := by
  obtain ⟨pairs, hp, hcfg, hfiles, hind, himg, hcnt⟩ := mkImageHandler_eq hmk
  obtain ⟨img0, rest, rfl⟩ : ∃ a t, images = a :: t := by
    cases images with
    | nil =>
      rw [List.length_nil] at hlen
      exact absurd (List.length_eq_zero.mp hlen.symm) hne
    | cons a t => exact ⟨a, t, rfl⟩
  rw [save_cons h img0 rest now hne]
  simp only [hcfg]
  rw [if_pos hfmt]
  have hlen2 :
      ((if img0.shape.length = 3 then (img0 :: rest).map cvtColor_BGR2RGB
        else img0 :: rest).map (resize_to_A4 cfg)).length = (img0 :: rest).length := by
    split
    · simp
    · simp
  rw [if_pos (le_of_eq (by rw [hlen2, hlen]))]
  refine ⟨_, rfl, rfl, ?_, ?_, ?_⟩
  · rw [List.length_zipWith _ _ _, hlen2, hlen]
    exact min_self _
  · exact map_fst_zipWith _ h.files _ (le_of_eq (by rw [hlen2, hlen]))
  · have h4 := map_fst_zipWith (fun f => pathJoin cfg.SAVE_PATH (basename f))
      h.files _ (le_of_eq (by rw [hlen2, hlen]))
    have : (List.zipWith
        (fun f im => (pathJoin cfg.SAVE_PATH (basename f), im)) h.files
        ((if img0.shape.length = 3 then (img0 :: rest).map cvtColor_BGR2RGB
          else img0 :: rest).map (resize_to_A4 cfg))).map (fun w => basename w.1) =
        ((List.zipWith (fun f im => (pathJoin cfg.SAVE_PATH (basename f), im)) h.files
          ((if img0.shape.length = 3 then (img0 :: rest).map cvtColor_BGR2RGB
            else img0 :: rest).map (resize_to_A4 cfg))).map Prod.fst).map basename := by
      rw [List.map_map]
      rfl
    rw [this, h4, List.map_map]
    exact List.map_congr_left
      (fun f _ => basename_pathJoin cfg.SAVE_PATH (slash_not_mem_basename f))

/-- C7 (witness): watermark -1, format `"jpg"`, three ingested files,
three images passed. -/
theorem save_image_format_witness :
    IMAGE_FORMATS.contains ((mkCfg ("jpg".data) (-1) 300).SAVE_FORMAT.map Char.toLower)
        = true ∧
    [(⟨[4, 6]⟩ : Image), ⟨[4, 6]⟩, ⟨[4, 6]⟩].length = (h0 ("jpg".data) 300).files.length ∧
    (∃ eff, (h0 ("jpg".data) 300).save [⟨[4, 6]⟩, ⟨[4, 6]⟩, ⟨[4, 6]⟩] [] = some eff ∧
      eff.pdf = none ∧
      eff.writes.length = (h0 ("jpg".data) 300).files.length ∧
      eff.writes.map Prod.fst =
        (h0 ("jpg".data) 300).files.map
          (fun f => pathJoin (mkCfg ("jpg".data) (-1) 300).SAVE_PATH (basename f)) ∧
      eff.writes.map (fun w => basename w.1) =
        (h0 ("jpg".data) 300).files.map basename) :=
  ⟨by decide, by decide,
   @save_image_format decode0 (mkCfg ("jpg".data) (-1) 300) fs0
     (h0 ("jpg".data) 300) [⟨[4, 6]⟩, ⟨[4, 6]⟩, ⟨[4, 6]⟩] []
     (by decide) (by decide) (by decide) (by decide)⟩

/-- C8: with an unrecognized `SAVE_FORMAT` and a non-empty Ingestion Set,
`save` writes no individual image files and exactly one document: the file
`SAVE_PATH/SAVE_PREFIX_<timestamp>.pdf` (timestamp at minute granularity,
`%d_%m_%y-%H_%M`), whose page count is the number of images passed. -/
theorem save_pdf_format {decode : Str → Image} {cfg : Config}
    {fs : List Str} {h : ImageHandler} (images : List Image) (now : Str)
    (img0 : Image) (rest : List Image)
    (hmk : mkImageHandler decode cfg fs = some h)
    (hfmt : IMAGE_FORMATS.contains (cfg.SAVE_FORMAT.map Char.toLower) = false)
    (hne : h.files ≠ []) (himg : images = img0 :: rest) :
    h.save images now =
      some ⟨true, [],
        some (pathJoin cfg.SAVE_PATH
                (cfg.SAVE_PREFIX ++ '_' :: (now ++ '.' :: "pdf".data)),
              images.length)⟩ := by
  obtain ⟨pairs, hp, hcfg, hfiles, hind, himgs, hcnt⟩ := mkImageHandler_eq hmk
  subst himg
  rw [save_cons h img0 rest now hne]
  simp only [hcfg]
  rw [if_neg (by rw [hfmt]; exact Bool.false_ne_true)]
  unfold get_pdf_filename
  have hlen2 :
      ((if img0.shape.length = 3 then (img0 :: rest).map cvtColor_BGR2RGB
        else img0 :: rest).map (resize_to_A4 cfg)).length = (img0 :: rest).length := by
    split
    · simp
    · simp
  rw [hlen2]

/-- C8 (witness): empty `SAVE_FORMAT`, one image passed, timestamp
`"10_10_25-12_30"`: one pdf named `out/scan_10_10_25-12_30.pdf` with one
page. -/
theorem save_pdf_format_witness :
    IMAGE_FORMATS.contains ((mkCfg [] (-1) 300).SAVE_FORMAT.map Char.toLower) = false ∧
    (h0 [] 300).save [⟨[4, 6]⟩] ("10_10_25-12_30".data) =
      some ⟨true, [],
        some (pathJoin (mkCfg [] (-1) 300).SAVE_PATH
                ((mkCfg [] (-1) 300).SAVE_PREFIX ++
                  '_' :: ("10_10_25-12_30".data ++ '.' :: "pdf".data)),
              [(⟨[4, 6]⟩ : Image)].length)⟩ :=
  ⟨by decide,
   @save_pdf_format decode0 (mkCfg [] (-1) 300) fs0 (h0 [] 300)
     [⟨[4, 6]⟩] ("10_10_25-12_30".data) ⟨[4, 6]⟩ []
     (by decide) (by decide) (by decide) rfl⟩

/-! ### C9 — iteration order and restartability -/

/-- Running the iterator with exactly the remaining fuel yields the
basename/image pairs from the cursor on, and leaves the cursor at the
end. -/
theorem drain_run (n : Nat) (h : ImageHandler)
    (hlen : h.images.length = h.files.length) (hcnt : h.cnt + n = h.files.length) :
    drain n h =
      (List.zipWith (fun f im => (basename f, im))
         (h.files.drop h.cnt) (h.images.drop h.cnt),
       { h with cnt := h.files.length }) := by
  induction n generalizing h with
  | zero =>
    unfold drain
    rw [List.drop_eq_nil_of_le (by omega : h.files.length ≤ h.cnt),
        List.zipWith_nil_left]
    obtain ⟨CFG, files, indices, images, cnt⟩ := h
    simp only [Nat.add_zero] at hcnt
    simp only at hcnt ⊢
    subst hcnt
    rfl
  | succ k ih =>
    have hne : ¬ (h.cnt = h.files.length) := by omega
    have hlt : h.cnt < h.files.length := by omega
    have hlti : h.cnt < h.images.length := by omega
    unfold drain ImageHandler.next
    rw [if_neg hne]
    show (match drain k { h with cnt := h.cnt + 1 } with
          | (rest, hEnd) =>
            ((basename (h.files.getD h.cnt []), h.images.getD h.cnt ⟨[]⟩) :: rest,
             hEnd)) = _
    rw [ih { h with cnt := h.cnt + 1 } hlen
          (by show h.cnt + 1 + k = h.files.length; omega)]
    rw [List.drop_eq_getElem_cons hlt, List.drop_eq_getElem_cons hlti,
        List.zipWith_cons_cons, List.getD_eq_getElem h.files [] hlt,
        List.getD_eq_getElem h.images ⟨[]⟩ hlti]

/-- C9: iterating a constructed handler yields the (base filename, image)
pairs positionally from the Ingestion Set — whose index sequence is
ascending — and iteration is restartable: after exhaustion the cursor is at
the end (`next` stops), the underlying files and images are unchanged (no
re-scan), and requesting a new iteration replays exactly the same
sequence. -/
theorem iteration_spec {decode : Str → Image} {cfg : Config}
    {fs : List Str} {h : ImageHandler}
    (hmk : mkImageHandler decode cfg fs = some h) :
    (drain h.files.length h.iter).1 =
        List.zipWith (fun f im => (basename f, im)) h.files h.images ∧
    List.Sorted (· ≤ ·) h.indices ∧
    (drain h.files.length h.iter).2.next = none ∧
    (drain h.files.length h.iter).2.files = h.files ∧
    (drain h.files.length h.iter).2.images = h.images ∧
    (drain (drain h.files.length h.iter).2.files.length
           ((drain h.files.length h.iter).2.iter)).1 =
      (drain h.files.length h.iter).1 := by
  obtain ⟨pairs, hp, hcfg, hfiles, hind, himg, hcnt⟩ := mkImageHandler_eq hmk
  have hlen : h.images.length = h.files.length := by
    rw [hfiles, himg]
    simp
  have hrun := drain_run h.files.length h.iter hlen
    (by show 0 + h.files.length = h.files.length; omega)
  have e1 : (drain h.files.length h.iter).2.iter = h.iter := by rw [hrun]; rfl
  have e2 : (drain h.files.length h.iter).2.files.length = h.files.length := by
    rw [hrun]
    rfl
  refine ⟨?_, ?_, ?_, ?_, ?_, ?_⟩
  · rw [hrun]
    show List.zipWith _ (h.files.drop 0) (h.images.drop 0) = _
    rw [List.drop_zero, List.drop_zero]
  · rw [hind]
    exact List.pairwise_map.mpr (keptPairs_sorted cfg pairs)
  · rw [hrun]
    show ImageHandler.next { h with cnt := h.files.length } = none
    unfold ImageHandler.next
    rw [if_pos rfl]
  · rw [hrun]
    rfl
  · rw [hrun]
    rfl
  · rw [e1, e2]

/-- C9 (witness): the concrete three-image run iterates, stops, and
restarts identically. -/
theorem iteration_spec_witness :
    (drain (h0 ("jpg".data) 300).files.length (h0 ("jpg".data) 300).iter).1 =
        List.zipWith (fun f im => (basename f, im)) (h0 ("jpg".data) 300).files
          (h0 ("jpg".data) 300).images ∧
    List.Sorted (· ≤ ·) (h0 ("jpg".data) 300).indices ∧
    (drain (h0 ("jpg".data) 300).files.length (h0 ("jpg".data) 300).iter).2.next = none ∧
    (drain (h0 ("jpg".data) 300).files.length (h0 ("jpg".data) 300).iter).2.files =
      (h0 ("jpg".data) 300).files ∧
    (drain (h0 ("jpg".data) 300).files.length (h0 ("jpg".data) 300).iter).2.images =
      (h0 ("jpg".data) 300).images ∧
    (drain (drain (h0 ("jpg".data) 300).files.length (h0 ("jpg".data) 300).iter).2.files.length
           ((drain (h0 ("jpg".data) 300).files.length (h0 ("jpg".data) 300).iter).2.iter)).1 =
      (drain (h0 ("jpg".data) 300).files.length (h0 ("jpg".data) 300).iter).1 :=
  @iteration_spec decode0 (mkCfg ("jpg".data) (-1) 300) fs0
    (h0 ("jpg".data) 300) (by decide)
